import Mathlib

/-!
Shallow embedding of the INA3221-over-sysfs backend of energymon
(`src/jetson/energymon-jetson.c`), covering:

* the filesystem rail walk (`ina3221x_walk_device_dir`,
  `ina3221x_walk_bus_addr_dir`, `ina3221x_walk_i2c_drivers_dir`,
  `ina3221x_walk_i2c_drivers_dir_for_default`, `close_and_clear_fds`);
* rail-name list parsing (`get_rail_names`, `strtok_to_arr_r`);
* polling-interval resolution (`get_polling_delay_us`);
* the initialization pipeline (`energymon_init_jetson`) with explicit
  resource accounting (open descriptors, heap allocations);
* the background sampling loop body (`jetson_poll_sensors`);
* the accessors (`energymon_read_total_jetson`,
  `energymon_get_interval_jetson`, `energymon_get_precision_jetson`).

Modelling conventions:

* The sysfs tree is a value: a list of bus-address directories, each a list
  of IIO device directories, each a list of channels.  Directory entries
  that do not match the naming grammar are skipped by the C code before the
  interesting logic runs, so the model lists contain only matching entries;
  the directories themselves are assumed readable (an `opendir` failure in
  the C code fails the walk before any per-channel logic runs and is not
  modelled).
* Reading a channel's `rail_name_N` file is an `Except Errno String`
  (success gives the newline-stripped name; `ENOENT` is the
  channel-not-connected case the code skips).
* `open` on a power file is modelled by a success flag; on success the OS
  hands out a fresh positive descriptor (`nextFd`, starting at 3), and the
  model keeps a ledger `openFds` of descriptors opened and not yet closed.
* Machine integers are `Nat`/`Int` with explicit `% 2 ^ 64` where the C
  `uint64_t` / `unsigned long` arithmetic can wrap.
* `strtoul` of the interval environment variable is modelled by its
  outcome, `Except Unit Nat` (`error` means errno was set by the parse).
-/

set_option maxRecDepth 100000
set_option maxHeartbeats 1000000

namespace EnergymonJetson

/-- Source constant `NUM_RAILS_DEFAULT_MAX`. -/
def NUM_RAILS_DEFAULT_MAX : Nat := 6

/-- Source constant `INA3221_MIN_POLLING_DELAY_US`. -/
def INA3221_MIN_POLLING_DELAY_US : Nat := 1000

/-- Source constant `INA3221_DEFAULT_POLLING_DELAY_US`. -/
def INA3221_DEFAULT_POLLING_DELAY_US : Nat := 100000

/-- Modulus of `uint64_t` / 64-bit `unsigned long` arithmetic. -/
def U64 : Nat := 2 ^ 64

/-- The errno values the modelled code distinguishes. -/
inductive Errno
  | enoent
  | eexist
  | enodev
  | einval
  | enomem
  | erange
  | eagain
  | eio
  deriving DecidableEq

/-- One INA3221 channel of an IIO device directory, as the walk observes it:
the outcome of reading its `rail_name_N` file, whether opening its
`in_powerN_input` file succeeds, and the value its `polling_delay_N` file
parses to (`read_long` result in milliseconds; `-1` when the file is absent
or unreadable). -/
structure Channel where
  nameRead : Except Errno String
  powerOpenOk : Bool
  delayMs : Int

/-- A `iio:deviceN` directory: its (connected or not) channels. -/
abbrev DeviceDir := List Channel

/-- An `X-ABCDE` bus-address directory: its IIO device directories. -/
abbrev BusAddrDir := List DeviceDir

/-- The `ina3221x` driver root directory. -/
abbrev DriversDir := List BusAddrDir

/-- Mutable state threaded through the walk: the caller's `fds` array
(`0` = unset, positive = open descriptor, `-1` = failed `open`), the
`polling_delay_us_max` out-parameter, plus bookkeeping for descriptor
allocation (`nextFd`) and the ledger of descriptors currently open
(`openFds`). -/
structure WSt where
  fds : List Int
  delayMax : Nat
  nextFd : Nat
  openFds : List Nat
  deriving DecidableEq

/-- Body of the matched-name branch of `ina3221x_walk_device_dir`:
duplicate-match check (`EEXIST`), `ina3221x_open_power_file`, and the
`polling_delay_us_max` update from `ina3221x_try_read_polling_delay_us`
(which returns `read_long(file) * 1000`). -/
def stepMatched (st : WSt) (i : Nat) (ch : Channel) : Option Errno × WSt :=
  if st.fds.getD i 0 ≠ 0 then
    (some Errno.eexist, st)
  else if ch.powerOpenOk then
    let fd := st.nextFd
    let st1 : WSt :=
      { st with fds := st.fds.set i (Int.ofNat fd),
                nextFd := fd + 1,
                openFds := fd :: st.openFds }
    let d : Int := ch.delayMs * 1000
    let st2 : WSt :=
      if 0 < d ∧ st1.delayMax < d.toNat then { st1 with delayMax := d.toNat }
      else st1
    (none, st2)
  else
    (some Errno.eio, { st with fds := st.fds.set i (-1) })

/-- One loop iteration of `ina3221x_walk_device_dir` for one channel:
skip on `ENOENT` from the rail-name read, fail on any other read error,
otherwise look the name up in `names` (first match, like the C inner
loop with its `break`) and process the match. -/
def walkChannel (names : List String) (st : WSt) (ch : Channel) :
    Option Errno × WSt :=
  match ch.nameRead with
  | Except.error e => if e = Errno.enoent then (none, st) else (some e, st)
  | Except.ok nm =>
    match names.findIdx? (fun s => s == nm) with
    | none => (none, st)
    | some i => stepMatched st i ch

/-- Model of `ina3221x_walk_device_dir`: process the channels of one device
directory in order, stopping at the first error. -/
def walkDeviceDir (names : List String) : WSt → List Channel → Option Errno × WSt
  | st, [] => (none, st)
  | st, ch :: rest =>
    match walkChannel names st ch with
    | (none, st1) => walkDeviceDir names st1 rest
    | (some e, st1) => (some e, st1)

/-- Model of `ina3221x_walk_bus_addr_dir`: walk each IIO device directory,
breaking out on the first error. -/
def walkBusAddrDir (names : List String) : WSt → List DeviceDir → Option Errno × WSt
  | st, [] => (none, st)
  | st, dev :: rest =>
    match walkDeviceDir names st dev with
    | (none, st1) => walkBusAddrDir names st1 rest
    | (some e, st1) => (some e, st1)

/-- Model of `ina3221x_walk_i2c_drivers_dir`: walk each bus-address directory,
breaking out on the first error. -/
def walkI2cDriversDir (names : List String) : WSt → DriversDir → Option Errno × WSt
  | st, [] => (none, st)
  | st, bus :: rest =>
    match walkBusAddrDir names st bus with
    | (none, st1) => walkI2cDriversDir names st1 rest
    | (some e, st1) => (some e, st1)

/-- Model of `close_and_clear_fds`: close every positive descriptor among the
first `maxFds` slots and zero the slot. -/
def close_and_clear_fds (st : WSt) (maxFds : Nat) : WSt :=
  (List.range maxFds).foldl
    (fun s i =>
      if 0 < s.fds.getD i 0 then
        { s with openFds := s.openFds.erase (s.fds.getD i 0).toNat,
                 fds := s.fds.set i 0 }
      else s)
    st

/-- Source table `DEFAULT_RAIL_NAMES` (the non-NULL prefixes of each profile array),
in the source's fixed priority order. -/
def DEFAULT_RAIL_NAMES : List (List String) :=
  [["VDD_IN", "VDD_MUX"],
   ["VDD_IN"],
   ["POM_5V_IN"],
   ["GPU", "CPU", "SOC", "CV", "VDDRQ", "SYS5V"]]

/-- Loop body of `ina3221x_walk_i2c_drivers_dir_for_default` over the
remaining profiles.  Returns (error?, final `*n_fds`, state).  NOTE: this
transcribes the C control flow faithfully, including the fact that after a
partial match with `fds[0] > 0` the inner `break` falls through to
`return 0` (success) rather than continuing the outer profile loop. -/
def walkForDefaultGo (fs : DriversDir) : WSt → List (List String) → Option Errno × Nat × WSt
  | st, [] => (some Errno.enodev, NUM_RAILS_DEFAULT_MAX, st)
  | st, prof :: rest =>
    let n := prof.length
    match walkI2cDriversDir prof st fs with
    | (some e, st1) => (some e, n, st1)
    | (none, st1) =>
      if 0 < st1.fds.getD 0 0 then
        if (List.range n).all (fun j => decide (0 < st1.fds.getD j 0)) then
          (none, n, st1)
        else
          (none, n, close_and_clear_fds st1 n)
      else
        walkForDefaultGo fs st1 rest

/-- Model of `ina3221x_walk_i2c_drivers_dir_for_default`. -/
def walkForDefault (fs : DriversDir) (st : WSt) : Option Errno × Nat × WSt :=
  walkForDefaultGo fs st DEFAULT_RAIL_NAMES

/-! ## The background sampling loop (`jetson_poll_sensors`) -/

/-- Outcome of one `pread` of a rail descriptor in the sampling loop:
`ok mw` = the read returned data that `strtoul` parses to `mw` milliwatts;
`eof` = the read returned 0 bytes (nothing added, errno untouched);
`fail` = the read failed and set errno. -/
inductive ReadRes
  | ok (mw : Nat)
  | eof
  | fail
  deriving DecidableEq

/-- The read loop of one tick
(`for (sum_mw = 0, errno = 0, i = 0; i < state->count && !errno; i++)`):
sum the parsed milliwatt values in 64-bit `unsigned long` arithmetic,
stopping (with errno set, result `none`) at the first failed read. -/
def sumUntilFail : List ReadRes → Option Nat :=
  go 0
where
  go (acc : Nat) : List ReadRes → Option Nat
    | [] => some acc
    | ReadRes.ok mw :: rest => go ((acc + mw) % U64) rest
    | ReadRes.eof :: rest => go acc rest
    | ReadRes.fail :: _ => none

/-- One tick of `jetson_poll_sensors` acting on `total_uj`: if no read
failed, `state->total_uj += (uint64_t) (sum_mw * exec_us / 1000)` in
`uint64_t` arithmetic; if a read failed the tick is skipped and the
total is unchanged. -/
def tickTotal (total : Nat) (reads : List ReadRes) (elapsed_us : Nat) : Nat :=
  match sumUntilFail reads with
  | some sum_mw => (total + ((sum_mw * elapsed_us) % U64) / 1000) % U64
  | none => total

/-- The microjoule increment a tick adds to the total (0 for a skipped
tick), as computed by the code. -/
def tickDelta (reads : List ReadRes) (elapsed_us : Nat) : Nat :=
  match sumUntilFail reads with
  | some sum_mw => ((sum_mw * elapsed_us) % U64) / 1000
  | none => 0

/-- Inputs of one tick of the sampling loop: the per-descriptor read
outcomes and the elapsed monotonic microseconds
(`energymon_gettime_elapsed_us`) since the previous tick. -/
structure TickIn where
  reads : List ReadRes
  elapsed_us : Nat

/-- Run the sampling loop for a finite list of ticks, starting from a
given total.  (Real-time sleeping and the stop flag determine only how
many ticks run; they carry no data and are not modelled.) -/
def runTicks : Nat → List TickIn → Nat
  | total, [] => total
  | total, t :: ts => runTicks (tickTotal total t.reads t.elapsed_us) ts

/-! ## Rail-name parsing (`get_rail_names`, `strtok_to_arr_r`) -/

/-- Helper for `strtok_r` splitting on a comma: maximal nonempty runs between commas
(consecutive or leading/trailing delimiters produce no token).
`cur` is the reversed current token. -/
def strtokSplitAux (cur : List Char) : List Char → List (List Char)
  | [] => if cur = [] then [] else [cur.reverse]
  | c :: rest =>
    if c = ',' then
      if cur = [] then strtokSplitAux [] rest
      else cur.reverse :: strtokSplitAux [] rest
    else strtokSplitAux (c :: cur) rest

/-- Model of `strtok_to_arr_r` on delimiter comma (allocation failures are injected
separately in the initialization model). -/
def strtokSplit (s : String) : List String :=
  (strtokSplitAux [] s.data).map String.mk

/-- Pairwise duplicate test matching the double loop in `get_rail_names`. -/
def hasDup : List String → Bool
  | [] => false
  | x :: xs => xs.contains x || hasDup xs

/-- Model of `get_rail_names`: tokenize the comma-separated list; an empty token
list is a parsing error (`EINVAL`), a duplicate entry is rejected
(`EINVAL`). -/
def get_rail_names (s : String) : Except Errno (List String) :=
  let names := strtokSplit s
  if names = [] then Except.error Errno.einval
  else if hasDup names then Except.error Errno.einval
  else Except.ok names

/-! ## Interval resolution (`get_polling_delay_us`) -/

/-- Model of `get_polling_delay_us`.  The environment variable
`ENERGYMON_JETSON_INTERVAL_US` is modelled by its `strtoul` outcome:
`none` = unset, `some (Except.error ())` = the parse set errno (the code
then returns 0, a fatal configuration error), `some (Except.ok v)` = it
parsed to `v`.  `sysfs` is the maximum polling delay the walk observed. -/
def get_polling_delay_us (env : Option (Except Unit Nat)) (sysfs : Nat) : Nat :=
  match env with
  | some (Except.error _) => 0
  | some (Except.ok v) =>
    if v < INA3221_MIN_POLLING_DELAY_US then INA3221_MIN_POLLING_DELAY_US else v
  | none =>
    let us := if sysfs < INA3221_DEFAULT_POLLING_DELAY_US then
                INA3221_DEFAULT_POLLING_DELAY_US
              else sysfs
    if us < INA3221_MIN_POLLING_DELAY_US then INA3221_MIN_POLLING_DELAY_US else us

/-! ## Initialization (`energymon_init_jetson`) with resource ledger -/

/-- The `energymon_jetson` state struct fields that carry data. -/
structure JetsonState where
  polling_delay_us : Nat
  total_uj : Nat
  count : Nat
  fds : List Int
  poll_sensors : Bool
  deriving DecidableEq

/-- Resource footprint of one `energymon_init_jetson` call: descriptors
opened and not yet closed, whether the `rail_names` array is still
allocated, and whether the `state` struct is still allocated. -/
structure Ledger where
  openFds : List Nat
  namesAlloc : Bool
  stateAlloc : Bool
  deriving DecidableEq

/-- The footprint before the call: nothing held. -/
def emptyLedger : Ledger := { openFds := [], namesAlloc := false, stateAlloc := false }

/-- Inputs of one `energymon_init_jetson` call on a fresh handle
(`em->state == NULL`): the `ENERGYMON_JETSON_RAIL_NAMES` value (if set),
injected allocation outcomes for `get_rail_names` and `calloc`, the sysfs
tree, the `ENERGYMON_JETSON_INTERVAL_US` parse outcome, and the
`pthread_create` outcome. -/
structure InitInput where
  railNamesStr : Option String
  railAllocOk : Bool
  stateAllocOk : Bool
  fs : DriversDir
  intervalEnv : Option (Except Unit Nat)
  threadOk : Bool

/-- Resource effect of `energymon_finish_jetson` (and of the `fail_rails`
label): close every positive descriptor among the first `count` slots;
the state struct and any name array are freed. -/
def cleanupLedger (st : WSt) (count : Nat) : Ledger :=
  { openFds := (close_and_clear_fds st count).openFds,
    namesAlloc := false,
    stateAlloc := false }

/-- Tail of `energymon_init_jetson` after discovery succeeded: resolve the
polling interval (failing when it resolves to 0, with errno left from the
parse), then start the sampling thread (failure cleans up via
`energymon_finish_jetson`). -/
def finishInit (inp : InitInput) (st1 : WSt) (count : Nat) :
    Except Errno JetsonState × Ledger :=
  let us := get_polling_delay_us inp.intervalEnv st1.delayMax
  if us = 0 then
    (Except.error Errno.erange, cleanupLedger st1 count)
  else if ¬ inp.threadOk then
    (Except.error Errno.eagain, cleanupLedger st1 count)
  else
    (Except.ok { polling_delay_us := us, total_uj := 0, count := count,
                 fds := st1.fds, poll_sensors := true },
     { openFds := st1.openFds, namesAlloc := false, stateAlloc := true })

/-- Model of `energymon_init_jetson` from the point where `calloc` succeeded:
run discovery (explicit names or the default-profile search) and, on
success, the interval/thread stages.  `n_rails` slots are zeroed by
`calloc` and `state->count = n_rails`. -/
def initWithNames (inp : InitInput) (railNames : Option (List String))
    (n_rails : Nat) : Except Errno JetsonState × Ledger :=
  if ¬ inp.stateAllocOk then
    (Except.error Errno.enomem, emptyLedger)
  else
    let st0 : WSt :=
      { fds := List.replicate n_rails 0, delayMax := 0, nextFd := 3, openFds := [] }
    match railNames with
    | some names =>
      match walkI2cDriversDir names st0 inp.fs with
      | (some e, st1) => (Except.error e, cleanupLedger st1 n_rails)
      | (none, st1) =>
        if (List.range n_rails).all (fun i => decide (0 < st1.fds.getD i 0)) then
          finishInit inp st1 n_rails
        else
          (Except.error Errno.enodev, cleanupLedger st1 n_rails)
    | none =>
      match walkForDefault inp.fs st0 with
      | (some e, _, st1) => (Except.error e, cleanupLedger st1 n_rails)
      | (none, n, st1) => finishInit inp st1 n

/-- Model of `energymon_init_jetson` on a fresh handle.  The first component is the
call result (`ok` = the state the handle now points to, `error` = the
errno returned, with `em->state` back to `NULL`); the second is the
resource footprint when the call returns. -/
def initModel (inp : InitInput) : Except Errno JetsonState × Ledger :=
  match inp.railNamesStr with
  | some s =>
    if ¬ inp.railAllocOk then (Except.error Errno.enomem, emptyLedger)
    else
      match get_rail_names s with
      | Except.error e => (Except.error e, emptyLedger)
      | Except.ok names => initWithNames inp (some names) names.length
  | none => initWithNames inp none NUM_RAILS_DEFAULT_MAX

/-- Model of the `energymon_init_jetson` result component only. -/
def initResult (inp : InitInput) : Except Errno JetsonState :=
  (initModel inp).1

/-! ## Accessors -/

/-- Model of `energymon_read_total_jetson` on an initialized handle. -/
def energymon_read_total (st : JetsonState) : Nat := st.total_uj

/-- Model of `energymon_get_interval_jetson` on an initialized handle. -/
def energymon_get_interval (st : JetsonState) : Nat := st.polling_delay_us

/-- Model of `energymon_get_precision_jetson` on an initialized handle:
interval / 1000, or 1 when that quotient is 0. -/
def energymon_get_precision (st : JetsonState) : Nat :=
  let prec := energymon_get_interval st / 1000
  if prec = 0 then 1 else prec

/-! ## Abort conditions of `ina3221x_walk_device_dir`, as the spec states
them: the walk over a device directory fails exactly when a rail-name
read fails with an error other than `ENOENT`, a matched channel's power
file cannot be opened, or a target name is matched a second time. -/

/-- The spec's abort conditions for the device-directory walk, relative
to the incoming walk state (whose `fds` entries record names already
matched by earlier channels or directories). -/
inductive WalkAborts (names : List String) : WSt → List Channel → Prop
  | nameReadErr {st : WSt} {ch : Channel} {rest : List Channel} {e : Errno}
      (hn : ch.nameRead = Except.error e) (he : e ≠ Errno.enoent) :
      WalkAborts names st (ch :: rest)
  | duplicateMatch {st : WSt} {ch : Channel} {rest : List Channel} {nm : String} {i : Nat}
      (hn : ch.nameRead = Except.ok nm)
      (hi : names.findIdx? (fun s => s == nm) = some i)
      (hd : st.fds.getD i 0 ≠ 0) :
      WalkAborts names st (ch :: rest)
  | powerOpenFail {st : WSt} {ch : Channel} {rest : List Channel} {nm : String} {i : Nat}
      (hn : ch.nameRead = Except.ok nm)
      (hi : names.findIdx? (fun s => s == nm) = some i)
      (hd : st.fds.getD i 0 = 0)
      (hp : ch.powerOpenOk = false) :
      WalkAborts names st (ch :: rest)
  | skipAbsent {st : WSt} {ch : Channel} {rest : List Channel}
      (hn : ch.nameRead = Except.error Errno.enoent)
      (htl : WalkAborts names st rest) :
      WalkAborts names st (ch :: rest)
  | skipUnmatched {st : WSt} {ch : Channel} {rest : List Channel} {nm : String}
      (hn : ch.nameRead = Except.ok nm)
      (hi : names.findIdx? (fun s => s == nm) = none)
      (htl : WalkAborts names st rest) :
      WalkAborts names st (ch :: rest)
  | continueMatched {st : WSt} {ch : Channel} {rest : List Channel} {nm : String}
      {i : Nat} {st2 : WSt}
      (hn : ch.nameRead = Except.ok nm)
      (hi : names.findIdx? (fun s => s == nm) = some i)
      (hs : stepMatched st i ch = (none, st2))
      (htl : WalkAborts names st2 rest) :
      WalkAborts names st (ch :: rest)

/-! ## Concrete fixtures -/

/-- A connected channel with the given rail name, with a working power
file and no reported polling delay. -/
def chanNamed (nm : String) : Channel :=
  { nameRead := Except.ok nm, powerOpenOk := true, delayMs := 0 }

/-- A sysfs tree exposing exactly one channel, named `VDD_IN`.  It fully
satisfies default profile 2 (`{VDD_IN}`) and is a strict subset of
default profile 1 (`{VDD_IN, VDD_MUX}`). -/
def fsVddIn : DriversDir := [[[chanNamed "VDD_IN"]]]

/-- Default-rail initialization against `fsVddIn` with a well-formed
environment. -/
def inpVddInDefault : InitInput :=
  { railNamesStr := none, railAllocOk := true, stateAllocOk := true,
    fs := fsVddIn, intervalEnv := none, threadOk := true }

/-- A sysfs tree exposing channels `VDD_MUX` and `POM_5V_IN` (no
`VDD_IN`): profile 1 matches only partially at its second position,
profile 3 matches fully. -/
def fsMuxPom : DriversDir := [[[chanNamed "VDD_MUX", chanNamed "POM_5V_IN"]]]

/-- Default-rail initialization against `fsMuxPom` with a malformed
polling-interval override, which makes the interval resolve to 0 and
forces the interval-stage failure path. -/
def inpMuxPomBadInterval : InitInput :=
  { railNamesStr := none, railAllocOk := true, stateAllocOk := true,
    fs := fsMuxPom, intervalEnv := some (Except.error ()), threadOk := true }

end EnergymonJetson

namespace EnergymonJetson

/-! ## Supporting lemmas -/

theorem sumUntilFail_go_map_ok (mws : List Nat) :
    ∀ acc : Nat, acc + mws.sum < U64 →
      sumUntilFail.go acc (mws.map ReadRes.ok) = some (acc + mws.sum) := by
  induction mws with
  | nil => intro acc _; simp [sumUntilFail.go]
  | cons mw rest ih =>
    intro acc h
    rw [List.sum_cons] at h
    have hmod : (acc + mw) % U64 = acc + mw := Nat.mod_eq_of_lt (by omega)
    show sumUntilFail.go ((acc + mw) % U64) (rest.map ReadRes.ok)
      = some (acc + (mw + rest.sum))
    rw [hmod, ih (acc + mw) (by omega)]
    congr 1
    omega

theorem sumUntilFail_map_ok (mws : List Nat) (h : mws.sum < U64) :
    sumUntilFail (mws.map ReadRes.ok) = some mws.sum := by
  unfold sumUntilFail
  simpa using sumUntilFail_go_map_ok mws 0 (by omega)

theorem sumUntilFail_go_of_fail_mem (reads : List ReadRes)
    (h : ReadRes.fail ∈ reads) : ∀ acc : Nat, sumUntilFail.go acc reads = none := by
  induction reads with
  | nil => cases h
  | cons r rest ih =>
    intro acc
    cases r with
    | ok mw =>
      have hr : ReadRes.fail ∈ rest := by
        cases h with
        | tail _ htl => exact htl
      simp [sumUntilFail.go, ih hr]
    | eof =>
      have hr : ReadRes.fail ∈ rest := by
        cases h with
        | tail _ htl => exact htl
      simp [sumUntilFail.go, ih hr]
    | fail => simp [sumUntilFail.go]

theorem sumUntilFail_of_fail_mem (reads : List ReadRes)
    (h : ReadRes.fail ∈ reads) : sumUntilFail reads = none := by
  unfold sumUntilFail
  exact sumUntilFail_go_of_fail_mem reads h 0

theorem tickTotal_ok1000_pow54 (total : Nat) :
    tickTotal total [ReadRes.ok 1000] (2 ^ 54) = (total + 2 ^ 54) % U64 := by
  unfold tickTotal
  rw [show sumUntilFail [ReadRes.ok 1000] = some 1000 from rfl]
  show (total + 1000 * 2 ^ 54 % U64 / 1000) % U64 = (total + 2 ^ 54) % U64
  rw [show (1000 : Nat) * 2 ^ 54 % U64 / 1000 = 2 ^ 54 by decide]

theorem runTicks_ok1000_pow54 : ∀ (n : Nat) (total : Nat), total < U64 →
    runTicks total (List.replicate n ⟨[ReadRes.ok 1000], 2 ^ 54⟩) =
      (total + n * 2 ^ 54) % U64 := by
  intro n
  induction n with
  | zero =>
    intro total h
    simp [runTicks, Nat.mod_eq_of_lt h]
  | succ n ih =>
    intro total _
    rw [List.replicate_succ]
    simp only [runTicks]
    rw [tickTotal_ok1000_pow54,
        ih ((total + 2 ^ 54) % U64) (Nat.mod_lt _ (by decide)),
        Nat.mod_add_mod]
    congr 1
    ring

theorem finishInit_ok {inp : InitInput} {st1 : WSt} {count : Nat}
    {st : JetsonState} {led : Ledger}
    (h : finishInit inp st1 count = (Except.ok st, led)) :
    st.polling_delay_us = get_polling_delay_us inp.intervalEnv st1.delayMax
    ∧ get_polling_delay_us inp.intervalEnv st1.delayMax ≠ 0
    ∧ st.count = count ∧ st.fds = st1.fds := by
  simp only [finishInit] at h
  split at h
  next hus => exact absurd (congrArg Prod.fst h) (by simp)
  next hus =>
    split at h
    next hth => exact absurd (congrArg Prod.fst h) (by simp)
    next hth =>
      have h1 := congrArg Prod.fst h
      simp only [Except.ok.injEq] at h1
      subst h1
      exact ⟨rfl, hus, rfl, rfl⟩

theorem initWithNames_ok {inp : InitInput} {rn : Option (List String)} {n : Nat}
    {st : JetsonState} {led : Ledger}
    (h : initWithNames inp rn n = (Except.ok st, led)) :
    ∃ st1 count, finishInit inp st1 count = (Except.ok st, led) := by
  simp only [initWithNames] at h
  split at h
  next hsa => exact absurd (congrArg Prod.fst h) (by simp)
  next hsa =>
  rcases rn with _ | names
  · dsimp only at h
    rcases hw : walkForDefault inp.fs
        { fds := List.replicate n 0, delayMax := 0, nextFd := 3, openFds := [] }
      with ⟨eopt, n2, st1⟩
    rw [hw] at h
    rcases eopt with _ | e
    · exact ⟨st1, n2, h⟩
    · exact absurd (congrArg Prod.fst h) (by simp)
  · dsimp only at h
    rcases hw : walkI2cDriversDir names
        { fds := List.replicate n 0, delayMax := 0, nextFd := 3, openFds := [] }
        inp.fs
      with ⟨eopt, st1⟩
    rw [hw] at h
    rcases eopt with _ | e
    · dsimp only at h
      by_cases hall :
        ((List.range n).all fun i => decide (0 < st1.fds.getD i 0)) = true
      · rw [if_pos hall] at h
        exact ⟨st1, n, h⟩
      · rw [if_neg hall] at h
        exact absurd (congrArg Prod.fst h) (by simp)
    · exact absurd (congrArg Prod.fst h) (by simp)

theorem initModel_ok {inp : InitInput} {st : JetsonState} {led : Ledger}
    (h : initModel inp = (Except.ok st, led)) :
    ∃ st1 count, finishInit inp st1 count = (Except.ok st, led) := by
  unfold initModel at h
  rcases hrn : inp.railNamesStr with _ | s
  · rw [hrn] at h
    exact initWithNames_ok h
  · rw [hrn] at h
    dsimp only at h
    by_cases hra : inp.railAllocOk
    · rw [if_neg (by simp [hra])] at h
      rcases hg : get_rail_names s with e | names
      · rw [hg] at h
        simp only [Prod.mk.injEq] at h
        exact absurd h.1 (by simp)
      · rw [hg] at h
        exact initWithNames_ok h
    · rw [if_pos (by simp [hra])] at h
      simp only [Prod.mk.injEq] at h
      exact absurd h.1 (by simp)

/-! ## Claims -/

theorem get_polling_delay_us_zero_or_min (env : Option (Except Unit Nat))
    (sysfs : Nat) :
    get_polling_delay_us env sysfs = 0 ∨
    INA3221_MIN_POLLING_DELAY_US ≤ get_polling_delay_us env sysfs := by
  rcases env with _ | pe
  · right
    show (1000 : Nat) ≤
      (if (if sysfs < 100000 then 100000 else sysfs) < 1000 then 1000
       else (if sysfs < 100000 then 100000 else sysfs))
    generalize (if sysfs < 100000 then (100000 : Nat) else sysfs) = u
    split <;> omega
  · rcases pe with e | v
    · left; rfl
    · right
      show (1000 : Nat) ≤ (if v < 1000 then 1000 else v)
      split <;> omega

/-- Claim C4: for every successful initialization — any combination of
override present/absent and observed hardware delay zero, small or large —
the resolved polling interval stored in the state (what `get_interval`
returns) is at least the hard-coded 1000 microsecond minimum; the interval
resolver yields either 0 or a value at least the minimum, and when it
yields 0 (malformed override) initialization never succeeds. -/
theorem claim_C4 :
    (∀ (env : Option (Except Unit Nat)) (sysfs : Nat),
       get_polling_delay_us env sysfs = 0 ∨
       INA3221_MIN_POLLING_DELAY_US ≤ get_polling_delay_us env sysfs)
    ∧ (∀ (inp : InitInput) (st : JetsonState),
        initResult inp = Except.ok st →
        INA3221_MIN_POLLING_DELAY_US ≤ st.polling_delay_us)
    ∧ (∀ (inp : InitInput) (st : JetsonState),
        inp.intervalEnv = some (Except.error ()) →
        initResult inp ≠ Except.ok st) := by
  refine ⟨get_polling_delay_us_zero_or_min, ?_, ?_⟩
  · intro inp st h
    have hpair : initModel inp = (Except.ok st, (initModel inp).2) := by
      rw [← h]; rfl
    obtain ⟨st1, count, hf⟩ := initModel_ok hpair
    obtain ⟨hp, hne, _, _⟩ := finishInit_ok hf
    rw [hp]
    rcases get_polling_delay_us_zero_or_min inp.intervalEnv st1.delayMax with h0 | hmin
    · exact absurd h0 hne
    · exact hmin
  · intro inp st henv h
    have hpair : initModel inp = (Except.ok st, (initModel inp).2) := by
      rw [← h]; rfl
    obtain ⟨st1, count, hf⟩ := initModel_ok hpair
    obtain ⟨_, hne, _, _⟩ := finishInit_ok hf
    apply hne
    rw [henv]
    rfl

theorem claim_C4_witness :
    initResult { railNamesStr := some "VDD_IN", railAllocOk := true,
                 stateAllocOk := true, fs := fsVddIn, intervalEnv := none,
                 threadOk := true } =
      Except.ok { polling_delay_us := 100000, total_uj := 0, count := 1,
                  fds := [3], poll_sensors := true }
    ∧ INA3221_MIN_POLLING_DELAY_US ≤ (100000 : Nat)
    ∧ initResult { railNamesStr := none, railAllocOk := true,
                   stateAllocOk := true, fs := fsVddIn,
                   intervalEnv := some (Except.error ()), threadOk := true } ≠
        Except.ok { polling_delay_us := 100000, total_uj := 0, count := 1,
                    fds := [3], poll_sensors := true } := by
  have h2 := claim_C4.2.1
      { railNamesStr := some "VDD_IN", railAllocOk := true, stateAllocOk := true,
        fs := fsVddIn, intervalEnv := none, threadOk := true }
      { polling_delay_us := 100000, total_uj := 0, count := 1, fds := [3],
        poll_sensors := true }
      rfl
  have h3 := claim_C4.2.2
      { railNamesStr := none, railAllocOk := true, stateAllocOk := true,
        fs := fsVddIn, intervalEnv := some (Except.error ()), threadOk := true }
      { polling_delay_us := 100000, total_uj := 0, count := 1, fds := [3],
        poll_sensors := true }
      rfl
  exact ⟨rfl, h2, h3⟩

theorem fails_of_walkAborts {names : List String} {st : WSt} {chans : List Channel}
    (h : WalkAborts names st chans) : (walkDeviceDir names st chans).1 ≠ none := by
  induction h with
  | nameReadErr hn he => simp [walkDeviceDir, walkChannel, hn, he]
  | duplicateMatch hn hi hd =>
    simp only [walkDeviceDir, walkChannel, hn, hi, stepMatched]
    rw [if_pos hd]
    simp
  | powerOpenFail hn hi hd hp =>
    simp only [walkDeviceDir, walkChannel, hn, hi, stepMatched]
    rw [if_neg (not_not.mpr hd), hp]
    simp
  | skipAbsent hn _ ih => simpa [walkDeviceDir, walkChannel, hn] using ih
  | skipUnmatched hn hi _ ih => simpa [walkDeviceDir, walkChannel, hn, hi] using ih
  | continueMatched hn hi hs _ ih => simpa [walkDeviceDir, walkChannel, hn, hi, hs] using ih

theorem walkAborts_of_fails (names : List String) :
    ∀ (chans : List Channel) (st : WSt),
      (walkDeviceDir names st chans).1 ≠ none → WalkAborts names st chans := by
  intro chans
  induction chans with
  | nil => intro st h; exact absurd rfl h
  | cons ch rest ih =>
    intro st h
    rcases hnr : ch.nameRead with e | nm
    · by_cases he : e = Errno.enoent
      · subst he
        rw [show walkDeviceDir names st (ch :: rest) = walkDeviceDir names st rest
              from by simp [walkDeviceDir, walkChannel, hnr]] at h
        exact WalkAborts.skipAbsent hnr (ih st h)
      · exact WalkAborts.nameReadErr hnr he
    · rcases hidx : names.findIdx? (fun s => s == nm) with _ | i
      · rw [show walkDeviceDir names st (ch :: rest) = walkDeviceDir names st rest
              from by simp [walkDeviceDir, walkChannel, hnr, hidx]] at h
        exact WalkAborts.skipUnmatched hnr hidx (ih st h)
      · by_cases hd : st.fds.getD i 0 ≠ 0
        · exact WalkAborts.duplicateMatch hnr hidx hd
        · have hd0 : st.fds.getD i 0 = 0 := not_not.mp hd
          cases hpo : ch.powerOpenOk
          · exact WalkAborts.powerOpenFail hnr hidx hd0 hpo
          · rcases hstep : stepMatched st i ch with ⟨eres, st2⟩
            rcases eres with _ | e
            · rw [show walkDeviceDir names st (ch :: rest) = walkDeviceDir names st2 rest
                    from by simp [walkDeviceDir, walkChannel, hnr, hidx, hstep]] at h
              exact WalkAborts.continueMatched hnr hidx hstep (ih st2 h)
            · exfalso
              simp only [stepMatched] at hstep
              rw [if_neg (not_not.mpr hd0), hpo, if_pos rfl] at hstep
              exact absurd (congrArg Prod.fst hstep) (by simp)

theorem get_rail_names_ok {s : String} {names : List String}
    (h : get_rail_names s = Except.ok names) :
    names = strtokSplit s ∧ hasDup names = false ∧ names ≠ [] := by
  simp only [get_rail_names] at h
  split at h
  · exact absurd h (by simp)
  · split at h
    next hd => exact absurd h (by simp)
    next hne hd =>
      simp only [Except.ok.injEq] at h
      subst h
      exact ⟨rfl, by simpa using hd, hne⟩

/-- Claim C8: with an explicit comma-separated rail-name list,
initialization fails with `EINVAL` when the list contains a duplicate
name; it fails with `ENODEV` when the filesystem walk succeeded but left
some requested rail unmatched; and when it succeeds, the state covers
exactly the listed rails and every one of them was found (all its
descriptor slots are positive) — no partial match is accepted. -/
theorem claim_C8 : ∀ (inp : InitInput) (s : String),
    inp.railNamesStr = some s → inp.railAllocOk = true →
    (hasDup (strtokSplit s) = true → initResult inp = Except.error Errno.einval)
    ∧ (∀ (names : List String) (st1 : WSt),
        inp.stateAllocOk = true →
        get_rail_names s = Except.ok names →
        walkI2cDriversDir names
          { fds := List.replicate names.length 0, delayMax := 0, nextFd := 3,
            openFds := [] } inp.fs = (none, st1) →
        (∃ i, i < names.length ∧ st1.fds.getD i 0 ≤ 0) →
        initResult inp = Except.error Errno.enodev)
    ∧ (∀ st : JetsonState, initResult inp = Except.ok st →
        st.count = (strtokSplit s).length ∧
        ∀ i, i < st.count → 0 < st.fds.getD i 0) := by
  intro inp s h1 h2
  refine ⟨?_, ?_, ?_⟩
  · intro hdup
    have hne : strtokSplit s ≠ [] := by
      intro he
      rw [he] at hdup
      simp [hasDup] at hdup
    have hg : get_rail_names s = Except.error Errno.einval := by
      simp only [get_rail_names]
      rw [if_neg hne, if_pos hdup]
    unfold initResult initModel
    rw [h1]
    dsimp only
    rw [if_neg (by simp [h2]), hg]
  · rintro names st1 hsa hg hw ⟨i, hi, hle⟩
    have hnall :
        ¬ ((List.range names.length).all
            fun j => decide (0 < st1.fds.getD j 0)) = true := by
      intro hall
      have hd := List.all_eq_true.mp hall i (List.mem_range.mpr hi)
      have := of_decide_eq_true hd
      omega
    unfold initResult initModel
    rw [h1]
    dsimp only
    rw [if_neg (by simp [h2]), hg]
    dsimp only
    simp only [initWithNames]
    rw [if_neg (by simp [hsa])]
    rw [hw]
    dsimp only
    rw [if_neg hnall]
  · intro st h
    have hpair : initModel inp = (Except.ok st, (initModel inp).2) := by
      rw [← h]; rfl
    unfold initModel at hpair
    rw [h1] at hpair
    dsimp only at hpair
    rw [if_neg (by simp [h2])] at hpair
    rcases hg : get_rail_names s with e | names
    · rw [hg] at hpair
      exact absurd (congrArg Prod.fst hpair) (by simp)
    · rw [hg] at hpair
      obtain ⟨hns, _, _⟩ := get_rail_names_ok hg
      dsimp only at hpair
      simp only [initWithNames] at hpair
      split at hpair
      next => exact absurd (congrArg Prod.fst hpair) (by simp)
      next hsa =>
      rcases hw : walkI2cDriversDir names
          { fds := List.replicate names.length 0, delayMax := 0, nextFd := 3,
            openFds := [] } inp.fs with ⟨eopt, st1⟩
      rw [hw] at hpair
      rcases eopt with _ | e
      · dsimp only at hpair
        by_cases hall :
          ((List.range names.length).all
            fun i => decide (0 < st1.fds.getD i 0)) = true
        · rw [if_pos hall] at hpair
          obtain ⟨_, _, hcount, hfds⟩ := finishInit_ok hpair
          constructor
          · rw [hcount, hns]
          · intro i hi
            rw [hcount] at hi
            have hd := List.all_eq_true.mp hall i (List.mem_range.mpr hi)
            rw [hfds]
            exact of_decide_eq_true hd
        · rw [if_neg hall] at hpair
          exact absurd (congrArg Prod.fst hpair) (by simp)
      · exact absurd (congrArg Prod.fst hpair) (by simp)

theorem claim_C8_witness :
    initResult { railNamesStr := some "A,A", railAllocOk := true,
                 stateAllocOk := true, fs := [], intervalEnv := none,
                 threadOk := true } = Except.error Errno.einval
    ∧ initResult { railNamesStr := some "VDD_IN", railAllocOk := true,
                   stateAllocOk := true, fs := [], intervalEnv := none,
                   threadOk := true } = Except.error Errno.enodev
    ∧ ({ polling_delay_us := 100000, total_uj := 0, count := 1, fds := [3],
         poll_sensors := true } : JetsonState).count = (strtokSplit "VDD_IN").length := by
  have hA := (claim_C8
      { railNamesStr := some "A,A", railAllocOk := true, stateAllocOk := true,
        fs := [], intervalEnv := none, threadOk := true } "A,A" rfl rfl).1
    (by decide)
  have hB := (claim_C8
      { railNamesStr := some "VDD_IN", railAllocOk := true, stateAllocOk := true,
        fs := [], intervalEnv := none, threadOk := true } "VDD_IN" rfl rfl).2.1
    ["VDD_IN"]
    { fds := [0], delayMax := 0, nextFd := 3, openFds := [] }
    rfl rfl rfl ⟨0, by decide, by decide⟩
  have hC := (claim_C8
      { railNamesStr := some "VDD_IN", railAllocOk := true, stateAllocOk := true,
        fs := fsVddIn, intervalEnv := none, threadOk := true } "VDD_IN" rfl rfl).2.2
    { polling_delay_us := 100000, total_uj := 0, count := 1, fds := [3],
      poll_sensors := true }
    rfl
  exact ⟨hA, hB, hC.1⟩

/-- Claim C10: on an initialized handle, `get_precision` returns the
resolved polling interval divided by 1000 (integer division), except that
it returns 1 when that quotient is 0; consequently it never returns 0,
even for intervals below 1000 microseconds. -/
theorem claim_C10 : ∀ st : JetsonState,
    energymon_get_precision st =
      (if st.polling_delay_us / 1000 = 0 then 1 else st.polling_delay_us / 1000)
    ∧ 0 < energymon_get_precision st := by
  intro st
  refine ⟨rfl, ?_⟩
  show 0 < (if st.polling_delay_us / 1000 = 0 then 1
            else st.polling_delay_us / 1000)
  split
  · exact Nat.one_pos
  · omega

/-- Claim C3, counterexample: with no environment override and a valid
nonzero hardware-reported polling delay of 50000 microseconds, the
resolved interval is 100000 (the hard-coded default), not the observed
delay — the default is not reserved for the no-observed-delay case. -/
theorem claim_C3_counterexample :
    get_polling_delay_us none 50000 = 100000 ∧
    50000 < get_polling_delay_us none 50000 := by
  exact ⟨by decide, by decide⟩

/-- Claim C3 (amended): the interval is resolved by strict priority:
a present override that fails to parse is fatal (the resolver yields 0);
a parsed override is used (clamped up to the 1000 us minimum); otherwise
the maximum observed polling delay is used when it is at least the
hard-coded default of 100000 us, and the hard-coded default is used
whenever the observed delay is below it (including when none was
observed). -/
theorem claim_C3 :
    (∀ s : Nat, get_polling_delay_us (some (Except.error ())) s = 0)
    ∧ (∀ v s : Nat, INA3221_MIN_POLLING_DELAY_US ≤ v →
        get_polling_delay_us (some (Except.ok v)) s = v)
    ∧ (∀ v s : Nat, v < INA3221_MIN_POLLING_DELAY_US →
        get_polling_delay_us (some (Except.ok v)) s = INA3221_MIN_POLLING_DELAY_US)
    ∧ (∀ s : Nat, INA3221_DEFAULT_POLLING_DELAY_US ≤ s →
        get_polling_delay_us none s = s)
    ∧ (∀ s : Nat, s < INA3221_DEFAULT_POLLING_DELAY_US →
        get_polling_delay_us none s = INA3221_DEFAULT_POLLING_DELAY_US) := by
  refine ⟨fun s => rfl, ?_, ?_, ?_, ?_⟩
  · intro v s hv
    have hv1 : (1000 : Nat) ≤ v := hv
    show (if v < 1000 then 1000 else v) = v
    rw [if_neg (show ¬ v < 1000 by omega)]
  · intro v s hv
    have hv1 : v < 1000 := hv
    show (if v < 1000 then 1000 else v) = 1000
    rw [if_pos hv1]
  · intro s hs
    have hs1 : (100000 : Nat) ≤ s := hs
    show (if (if s < 100000 then 100000 else s) < 1000 then 1000
          else (if s < 100000 then 100000 else s)) = s
    rw [if_neg (show ¬ s < 100000 by omega),
        if_neg (show ¬ s < 1000 by omega)]
  · intro s hs
    have hs1 : s < 100000 := hs
    show (if (if s < 100000 then 100000 else s) < 1000 then 1000
          else (if s < 100000 then 100000 else s)) = 100000
    rw [if_pos hs1, if_neg (show ¬ (100000 : Nat) < 1000 by omega)]

theorem claim_C3_witness :
    INA3221_MIN_POLLING_DELAY_US ≤ 5000 ∧
    get_polling_delay_us (some (Except.ok 5000)) 7 = 5000 ∧
    INA3221_DEFAULT_POLLING_DELAY_US ≤ 250000 ∧
    get_polling_delay_us none 250000 = 250000 := by
  refine ⟨by decide, claim_C3.2.1 5000 7 (by decide), by decide,
          claim_C3.2.2.2.1 250000 (by decide)⟩

/-- Claim C2: in a tick where all descriptor reads succeed, the total
increases by exactly `power_sum_mw * elapsed_us / 1000` microjoules
(truncating integer arithmetic; stated here under the side conditions
that the 64-bit products and the accumulated total do not wrap), and in
particular three ticks with rails reading 500, 300 and 200 mW and
100 ms elapsed per tick accumulate exactly 300000 microjoules. -/
theorem claim_C2 :
    (∀ (total elapsed : Nat) (mws : List Nat),
       mws.sum < U64 →
       mws.sum * elapsed < U64 →
       total + mws.sum * elapsed / 1000 < U64 →
       tickTotal total (mws.map ReadRes.ok) elapsed =
         total + mws.sum * elapsed / 1000)
    ∧ runTicks 0 (List.replicate 3
        ⟨[ReadRes.ok 500, ReadRes.ok 300, ReadRes.ok 200], 100000⟩) = 300000 := by
  constructor
  · intro total elapsed mws h0 h1 h2
    unfold tickTotal
    rw [sumUntilFail_map_ok mws h0]
    simp only
    rw [Nat.mod_eq_of_lt h1, Nat.mod_eq_of_lt h2]
  · rfl

theorem claim_C2_witness :
    tickTotal 0 ([500, 300, 200].map ReadRes.ok) 100000 = 100000 := by
  have h := claim_C2.1 0 100000 [500, 300, 200] (by decide) (by decide) (by decide)
  exact h.trans (by decide)

/-- Claim C6, counterexample: the total is a `uint64_t` and accumulation
wraps modulo `2 ^ 64`, so the read total is not monotonically
non-decreasing across consecutive ticks: starting from 0, after 1023
ticks of a single rail reading 1000 mW with `2 ^ 54` microseconds
elapsed per tick the total is `1023 * 2 ^ 54`, and the next such tick
wraps it to 0. -/
theorem claim_C6_counterexample :
    runTicks 0 (List.replicate 1024 ⟨[ReadRes.ok 1000], 2 ^ 54⟩) <
    runTicks 0 (List.replicate 1023 ⟨[ReadRes.ok 1000], 2 ^ 54⟩) := by
  rw [runTicks_ok1000_pow54 1024 0 (by decide),
      runTicks_ok1000_pow54 1023 0 (by decide)]
  decide

/-- Claim C6 (amended): while the monitor is running, with non-negative
power readings, the total is monotonically non-decreasing across
consecutive reads provided the 64-bit accumulation does not overflow:
whenever the previous total plus the tick's integer increment is below
`2 ^ 64`, the total after the tick is at least the total before it. -/
theorem claim_C6 : ∀ (total : Nat) (reads : List ReadRes) (elapsed : Nat),
    total + tickDelta reads elapsed < U64 →
    total ≤ tickTotal total reads elapsed := by
  intro total reads elapsed h
  unfold tickDelta at h
  unfold tickTotal
  cases hs : sumUntilFail reads with
  | none => simp
  | some s =>
    rw [hs] at h
    simp only
    rw [Nat.mod_eq_of_lt h]
    omega

theorem claim_C6_witness :
    5 + tickDelta [ReadRes.ok 500] 1000 < U64 ∧
    5 ≤ tickTotal 5 [ReadRes.ok 500] 1000 := by
  exact ⟨by decide, claim_C6 5 [ReadRes.ok 500] 1000 (by decide)⟩

/-- Claim C7: a failed read on any rail descriptor makes that tick
contribute zero energy (its partial sum is discarded, the total is
unchanged), but does not terminate the loop: the immediately following
tick acts on the unchanged total exactly as a normal tick, so a
subsequent all-successful tick accumulates normally again. -/
theorem claim_C7 : ∀ (total : Nat) (reads1 : List ReadRes) (e1 : Nat)
    (reads2 : List ReadRes) (e2 : Nat),
    ReadRes.fail ∈ reads1 →
    tickTotal total reads1 e1 = total ∧
    runTicks total [⟨reads1, e1⟩, ⟨reads2, e2⟩] = tickTotal total reads2 e2 := by
  intro total reads1 e1 reads2 e2 hmem
  have hn := sumUntilFail_of_fail_mem reads1 hmem
  have ht : tickTotal total reads1 e1 = total := by
    unfold tickTotal
    rw [hn]
  refine ⟨ht, ?_⟩
  simp [runTicks, ht]

theorem claim_C7_witness :
    tickTotal 7 [ReadRes.ok 5, ReadRes.fail] 123 = 7 ∧
    runTicks 7 [⟨[ReadRes.ok 5, ReadRes.fail], 123⟩, ⟨[ReadRes.ok 2], 3000⟩]
      = tickTotal 7 [ReadRes.ok 2] 3000 := by
  exact claim_C7 7 [ReadRes.ok 5, ReadRes.fail] 123 [ReadRes.ok 2] 3000 (by decide)

/-- Claim C9: during the walk over a device directory's channels, a
channel whose rail-name file does not exist (`ENOENT`) is silently
skipped (state untouched, walk continues); and the walk fails as a
whole, propagating an error, exactly when one of the spec's abort
conditions occurs along it: a rail-name read fails with an error other
than `ENOENT`, a matched channel's power file cannot be opened, or a
target name whose slot is already filled is matched again — the latter
reported as `EEXIST`. -/
theorem claim_C9 :
    (∀ (names : List String) (st : WSt) (chans : List Channel),
       (walkDeviceDir names st chans).1 ≠ none ↔ WalkAborts names st chans)
    ∧ (∀ (names : List String) (st : WSt) (po : Bool) (dm : Int)
         (rest : List Channel),
       walkDeviceDir names st
           (({ nameRead := Except.error Errno.enoent, powerOpenOk := po,
               delayMs := dm } : Channel) :: rest)
         = walkDeviceDir names st rest)
    ∧ (∀ (names : List String) (st : WSt) (ch : Channel) (rest : List Channel)
         (nm : String) (i : Nat),
       ch.nameRead = Except.ok nm →
       names.findIdx? (fun s => s == nm) = some i →
       st.fds.getD i 0 ≠ 0 →
       (walkDeviceDir names st (ch :: rest)).1 = some Errno.eexist) := by
  refine ⟨?_, ?_, ?_⟩
  · intro names st chans
    exact ⟨walkAborts_of_fails names chans st, fails_of_walkAborts⟩
  · intro names st po dm rest
    simp [walkDeviceDir, walkChannel]
  · intro names st ch rest nm i hn hi hd
    simp only [walkDeviceDir, walkChannel, hn, hi, stepMatched]
    rw [if_pos hd]

theorem claim_C9_witness :
    WalkAborts ["A"] { fds := [1], delayMax := 0, nextFd := 3, openFds := [] }
      [{ nameRead := Except.ok "A", powerOpenOk := true, delayMs := 0 }]
    ∧ (walkDeviceDir ["A"]
        { fds := [1], delayMax := 0, nextFd := 3, openFds := [] }
        [{ nameRead := Except.ok "A", powerOpenOk := true, delayMs := 0 }]).1
      = some Errno.eexist := by
  constructor
  · exact (claim_C9.1 ["A"] { fds := [1], delayMax := 0, nextFd := 3, openFds := [] }
      [{ nameRead := Except.ok "A", powerOpenOk := true, delayMs := 0 }]).mp
      (by decide)
  · exact claim_C9.2.2 ["A"] { fds := [1], delayMax := 0, nextFd := 3, openFds := [] }
      { nameRead := Except.ok "A", powerOpenOk := true, delayMs := 0 } [] "A" 0
      rfl rfl (by decide)

/-- Claim C1, code evaluation at the failing input: on a filesystem
exposing exactly one channel, named `VDD_IN`, the default-profile search
matches profile 1 (`{VDD_IN, VDD_MUX}`) only partially, closes the
descriptor it had opened — and then returns success (the `break` that
the source comments as `continue outer loop` falls through to
`return 0`), so initialization succeeds with `count = 2` and no open
descriptor, although profile 2 (`{VDD_IN}`) is fully satisfied by this
filesystem (last conjunct) and, per the claim, should have been
selected with its descriptor open. -/
theorem claim_C1_code_eval :
    initModel inpVddInDefault =
      (Except.ok { polling_delay_us := 100000, total_uj := 0, count := 2,
                   fds := [0, 0, 0, 0, 0, 0], poll_sensors := true },
       { openFds := [], namesAlloc := false, stateAlloc := true })
    ∧ walkI2cDriversDir ["VDD_IN"]
        { fds := [0], delayMax := 0, nextFd := 3, openFds := [] } fsVddIn =
      (none, { fds := [3], delayMax := 0, nextFd := 4, openFds := [3] }) := by
  exact ⟨rfl, rfl⟩

/-- Claim C5, code evaluation at the failing input: on a filesystem
exposing channels `VDD_MUX` and `POM_5V_IN` (no `VDD_IN`), the
default-profile search opens a descriptor for `VDD_MUX` at position 1 of
profile 1, keeps it open when moving on (because `fds[0]` is still 0 the
partial match is not discarded), then fully matches profile 3 with
`count = 1`; a subsequent interval-resolution failure runs the cleanup,
which only closes descriptors at positions below `count`, so the call
fails with the `VDD_MUX` descriptor (fd 3) still open — a descriptor
leak on a failure path. -/
theorem claim_C5_code_eval :
    initModel inpMuxPomBadInterval =
      (Except.error Errno.erange,
       { openFds := [3], namesAlloc := false, stateAlloc := false })
    ∧ (initModel inpMuxPomBadInterval).2.openFds.length = 1 := by
  exact ⟨rfl, rfl⟩

end EnergymonJetson
